import Mathlib

/-!
Shallow embedding of the czid-dedup deduplication engine
(`src/clusters.rs`, `src/paired.rs`).

Byte sequences are `List Nat` (each entry a byte value `< 256`);
64-bit machine words are `Nat` reduced modulo `2 ^ 64` wherever the Rust
code performs wrapping 64-bit arithmetic.  Fallible operations return
`Except String _`, with state passed explicitly (Rust's `&mut self`
becomes an extra returned state).
-/

namespace CzidDedup

/-! ### SipHash-1-3, the algorithm behind Rust's `DefaultHasher`

`Clusters::insert_single` / `insert_pair` feed the hashed bytes into
`std::collections::hash_map::DefaultHasher`, which is SipHash-1-3 with
both keys zero.  `Hash::hash_slice` on a `[u8]` writes the raw bytes (no
length prefix); `Hash::hash(&0i32)` writes the four zero bytes of `0i32`.
The hasher consumes one concatenated byte stream, processes it in 8-byte
little-endian words with one SipRound per word, then a final block whose
top byte is the total length mod 256, then three finalization rounds.
-/

/-- Wrapping 64-bit addition. -/
def wadd (a b : Nat) : Nat := (a + b) % 2 ^ 64

/-- 64-bit left rotation: low part `x <<< n` (mod `2 ^ 64`) plus high part
`x >>> (64 - n)`; the two parts occupy disjoint bit ranges. -/
def rotl (x n : Nat) : Nat := (x * 2 ^ n + x / 2 ^ (64 - n)) % 2 ^ 64

/-- The four 64-bit state words of a SipHash hasher. -/
structure SipState where
  v0 : Nat
  v1 : Nat
  v2 : Nat
  v3 : Nat
deriving DecidableEq, Repr

/-- One SipRound (the ARX round of SipHash). -/
def sipRound (s : SipState) : SipState :=
  let a0 := wadd s.v0 s.v1
  let b1 := rotl s.v1 13
  let c1 := Nat.xor b1 a0
  let a1 := rotl a0 32
  let a2 := wadd s.v2 s.v3
  let b3 := rotl s.v3 16
  let c3 := Nat.xor b3 a2
  let d0 := wadd a1 c3
  let d3 := rotl c3 21
  let e3 := Nat.xor d3 d0
  let d2 := wadd a2 c1
  let e1 := rotl c1 17
  let f1 := Nat.xor e1 d2
  let e2 := rotl d2 32
  ⟨d0, f1, e2, e3⟩

/-- Absorb one 64-bit message word: `v3 ^= m`, one SipRound (c = 1 for
SipHash-1-3), `v0 ^= m`. -/
def sipCompress (s : SipState) (m : Nat) : SipState :=
  let s1 := sipRound { s with v3 := Nat.xor s.v3 m }
  { s1 with v0 := Nat.xor s1.v0 m }

/-- Little-endian word value of a byte list (first byte is least
significant). -/
def leWord (bytes : List Nat) : Nat :=
  bytes.foldr (fun b acc => b % 256 + 256 * acc) 0

/-- Absorb all full 8-byte words of the message; return the final state
and the remaining tail of fewer than 8 bytes. -/
def sipProcess (s : SipState) : List Nat → SipState × List Nat
  | b0 :: b1 :: b2 :: b3 :: b4 :: b5 :: b6 :: b7 :: rest =>
      sipProcess (sipCompress s (leWord [b0, b1, b2, b3, b4, b5, b6, b7])) rest
  | rest => (s, rest)

/-- SipHash-1-3 with keys `(0, 0)`: exactly what
`DefaultHasher::new()` followed by `write(msg)` and `finish()` computes.
The final block is `(len % 256) <<< 56 ||| tail` (the two parts are
disjoint in bits, so the or is an addition); finalization xors `0xff`
into `v2`, runs three SipRounds (d = 3) and xors the four state words. -/
def sipHash13 (msg : List Nat) : Nat :=
  let st0 : SipState :=
    ⟨0x736f6d6570736575, 0x646f72616e646f6d, 0x6c7967656e657261, 0x7465646279746573⟩
  let pr := sipProcess st0 msg
  let b := ((msg.length % 256) * 2 ^ 56 + leWord pr.2) % 2 ^ 64
  let st2 := sipCompress pr.1 b
  let st3 := { st2 with v2 := Nat.xor st2.v2 0xff }
  let st4 := sipRound (sipRound (sipRound st3))
  Nat.xor (Nat.xor st4.v0 st4.v1) (Nat.xor st4.v2 st4.v3)

/-! ### The csv row sink (external collaborator, §6 of the spec)

The `csv::Writer` used by the store is external to this repository; it is
modelled as the list of rows successfully written so far plus an oracle
(`plan`) saying whether each successive write succeeds, so that row-sink
failure at any point is expressible.  An exhausted oracle means every
further write succeeds. -/

/-- A tabular row sink: rows written so far, and an oracle of upcoming
write outcomes (`true` = success). -/
structure CsvWriter where
  rows : List (List String)
  plan : List Bool
deriving DecidableEq, Repr

/-- Write one row: on success the row is appended; on failure the sink's
contents are unchanged and an error is returned. -/
def writeRecord (w : CsvWriter) (row : List String) : CsvWriter × Except String Unit :=
  match w.plan with
  | [] => (⟨w.rows ++ [row], []⟩, Except.ok ())
  | true :: rest => (⟨w.rows ++ [row], rest⟩, Except.ok ())
  | false :: rest => (⟨w.rows, rest⟩, Except.error "row sink write failure")

/-- The sink's next write will succeed. -/
def nextWriteOk (w : CsvWriter) : Prop :=
  w.plan = [] ∨ w.plan.head? = some true

instance (w : CsvWriter) : Decidable (nextWriteOk w) := by
  unfold nextWriteOk; infer_instance

/-! ### Records and the cluster store (`src/clusters.rs`) -/

/-- A sequence record (the `fastx::Record` capability): identifier and
raw sequence bytes. -/
structure Rec where
  id : String
  seq : List Nat
deriving DecidableEq, Repr

/-- A validated read pair (`paired::PairedRecord`); its identifier is
`r1`'s identifier. -/
structure PairedRecord where
  r1 : Rec
  r2 : Rec
deriving DecidableEq, Repr

/-- `Cluster`: representative read id and cluster size. -/
structure Cluster where
  id : String
  size : Nat
deriving DecidableEq, Repr

/-- `Clusters<T>`: fingerprint→Cluster mapping (association list keyed by
the 64-bit hash; `HashMap` insertion is modelled as appending a fresh
entry, iteration order is the list order), optional csv row sink, total
insert counter, optional configured prefix length. -/
structure Clusters where
  clusterMap : List (Nat × Cluster)
  clusterCsvWriter : Option CsvWriter
  totalRecords : Nat
  prefixLengthOpt : Option Nat
deriving DecidableEq, Repr

/-- `HashMap::get` on the association list. -/
def lookupCluster : List (Nat × Cluster) → Nat → Option Cluster
  | [], _ => none
  | (k, c) :: rest, key => if k = key then some c else lookupCluster rest key

/-- `cluster.size += 1` through `get_mut`: bump the size of the entry
with the given key, leaving the map's structure unchanged. -/
def bumpCluster (m : List (Nat × Cluster)) (key : Nat) : List (Nat × Cluster) :=
  m.map fun e => if e.1 = key then (e.1, ⟨e.2.id, e.2.size + 1⟩) else e

/-- `Clusters::insert_record`: increment `total_records`; on a hit bump
the cluster's size and (if a sink is configured) append the row
`(representative_id, id)`, returning `false`; on a miss append the row
`(id, id)` (if a sink is configured), insert a fresh cluster of size 1,
and return `true`.  A sink failure propagates as the error while the
counter and map mutations stand. -/
def insert_record (s : Clusters) (seqHash : Nat) (id : String) : Clusters × Except String Bool :=
  match lookupCluster s.clusterMap seqHash with
  | some cluster =>
    match s.clusterCsvWriter with
    | none =>
      ({ clusterMap := bumpCluster s.clusterMap seqHash,
         clusterCsvWriter := none,
         totalRecords := s.totalRecords + 1,
         prefixLengthOpt := s.prefixLengthOpt }, Except.ok false)
    | some w =>
      let wr := writeRecord w [cluster.id, id]
      ({ clusterMap := bumpCluster s.clusterMap seqHash,
         clusterCsvWriter := some wr.1,
         totalRecords := s.totalRecords + 1,
         prefixLengthOpt := s.prefixLengthOpt }, wr.2.map fun _ => false)
  | none =>
    match s.clusterCsvWriter with
    | none =>
      ({ clusterMap := s.clusterMap ++ [(seqHash, ⟨id, 1⟩)],
         clusterCsvWriter := none,
         totalRecords := s.totalRecords + 1,
         prefixLengthOpt := s.prefixLengthOpt }, Except.ok true)
    | some w =>
      let wr := writeRecord w [id, id]
      ({ clusterMap := s.clusterMap ++ [(seqHash, ⟨id, 1⟩)],
         clusterCsvWriter := some wr.1,
         totalRecords := s.totalRecords + 1,
         prefixLengthOpt := s.prefixLengthOpt }, wr.2.map fun _ => true)

/-- `Clusters::get_prefix`: the first `min(P, len)` bytes when a prefix
length `P` is configured, otherwise the whole sequence. -/
def prefixBytes (s : Clusters) (seq : List Nat) : List Nat :=
  let seqLength := seq.length
  let prefixLength :=
    match s.prefixLengthOpt with
    | some p => min p seqLength
    | none => seqLength
  seq.take prefixLength

/-- The fingerprint `insert_single` computes: SipHash-1-3 of the hashed
prefix bytes. -/
def single_hash (s : Clusters) (r : Rec) : Nat :=
  sipHash13 (prefixBytes s r.seq)

/-- The fingerprint `insert_pair` computes: SipHash-1-3 of
`prefix(r1) ++ [0,0,0,0] ++ prefix(r2)` — the four zero bytes are what
`Hash::hash(&0i32)` writes between the two `hash_slice` calls. -/
def pair_hash (s : Clusters) (p : PairedRecord) : Nat :=
  sipHash13 (prefixBytes s p.r1.seq ++ [0, 0, 0, 0] ++ prefixBytes s p.r2.seq)

/-- `Clusters::insert_single`. -/
def insert_single (s : Clusters) (r : Rec) : Clusters × Except String Bool :=
  insert_record s (single_hash s r) r.id

/-- `Clusters::insert_pair`; the stored identifier is
`record.id() = r1.id`. -/
def insert_pair (s : Clusters) (p : PairedRecord) : Clusters × Except String Bool :=
  insert_record s (pair_hash s p) p.r1.id

/-- `Clusters::unique_records`: the number of clusters. -/
def unique_records (s : Clusters) : Nat := s.clusterMap.length

/-- `Clusters::total_records`. -/
def total_records (s : Clusters) : Nat := s.totalRecords

/-- `Clusters::duplicate_records`: the u64 subtraction
`total_records - unique_records`. -/
def duplicate_records (s : Clusters) : Nat := total_records s - unique_records s

/-- The per-cluster row `write_sizes` emits: `(representative_id, size)`. -/
def sizeRow (c : Cluster) : List String := [c.id, toString c.size]

/-- The row loop of `Clusters::write_sizes`: one row per cluster, in the
mapping's iteration order, stopping at the first failed write. -/
def writeSizesRows (w : CsvWriter) : List (Nat × Cluster) → CsvWriter × Except String Unit
  | [] => (w, Except.ok ())
  | e :: rest =>
    let wr := writeRecord w (sizeRow e.2)
    match wr.2 with
    | Except.ok _ => writeSizesRows wr.1 rest
    | Except.error err => (wr.1, Except.error err)

/-- `Clusters::write_sizes`: header row, then one `(representative_id,
size)` row per cluster in the mapping's iteration order; the first failed
write aborts with its error. -/
def write_sizes (s : Clusters) (w : CsvWriter) : CsvWriter × Except String Unit :=
  let wr := writeRecord w ["representative read id", "cluster size"]
  match wr.2 with
  | Except.ok _ => writeSizesRows wr.1 s.clusterMap
  | Except.error err => (wr.1, Except.error err)

/-- `Clusters::from_writer`: an empty store; when a sink is supplied the
mapping header row is written first and a failure there aborts
construction. -/
def from_writer (wOpt : Option CsvWriter) (pOpt : Option Nat) : Except String Clusters :=
  match wOpt with
  | none => Except.ok ⟨[], none, 0, pOpt⟩
  | some w =>
    let wr := writeRecord w ["representative read id", "read id"]
    match wr.2 with
    | Except.ok _ => Except.ok ⟨[], some wr.1, 0, pOpt⟩
    | Except.error err => Except.error err

/-! ### Runs of the store -/

/-- One insert call: either `insert_single` or `insert_pair`. -/
inductive Op where
  | single (r : Rec)
  | pair (p : PairedRecord)
deriving DecidableEq, Repr

/-- Perform one insert call, returning the new state and the result. -/
def insertOp (s : Clusters) (op : Op) : Clusters × Except String Bool :=
  match op with
  | Op.single r => insert_single s r
  | Op.pair p => insert_pair s p

/-- Perform one insert call, keeping only the state (the run continues
whether the call returned `Ok` or `Err`). -/
def applyOp (s : Clusters) (op : Op) : Clusters := (insertOp s op).1

/-- Run a whole sequence of insert calls. -/
def runOps (s : Clusters) (ops : List Op) : Clusters := ops.foldl applyOp s

/-- The fingerprint an insert call computes at a given state. -/
def opHash (s : Clusters) (op : Op) : Nat :=
  match op with
  | Op.single r => single_hash s r
  | Op.pair p => pair_hash s p

/-- The identifier an insert call stores. -/
def opId (op : Op) : String :=
  match op with
  | Op.single r => r.id
  | Op.pair p => p.r1.id

/-! ### The paired-record synchronizer (`src/paired.rs`) -/

/-- The `std::io::ErrorKind` values the synchronizer produces or
propagates. -/
inductive ErrKind where
  | unexpectedEof
  | invalidData
  | other
deriving DecidableEq, Repr

/-- A `std::io::Error`: kind plus message. -/
structure IOErr where
  kind : ErrKind
  msg : String
deriving DecidableEq, Repr

/-- `PairedRecord::try_from((r1, r2))`: the pair when the identifiers
agree, otherwise an `InvalidData` error naming both identifiers. -/
def pairedTryFrom (r1 r2 : Rec) : Except IOErr PairedRecord :=
  if r1.id = r2.id then Except.ok ⟨r1, r2⟩
  else
    Except.error
      ⟨ErrKind.invalidData,
        "read pair had different read IDs: (" ++ r1.id ++ ", " ++ r2.id ++ ")"⟩

/-- `PairedRecords::next`: pull one element from each stream (streams are
modelled as the list of their remaining elements) and combine them by the
source's `match`, whose arms apply in order: ok/ok, end/end, the two
end-of-stream mismatches, then error propagation from r1 and from r2.
Returns the produced element (`none` = end of sequence) and the two
remaining streams. -/
def pairedNext (st : List (Except IOErr Rec) × List (Except IOErr Rec)) :
    Option (Except IOErr PairedRecord) × (List (Except IOErr Rec) × List (Except IOErr Rec)) :=
  match st with
  | (Except.ok r1 :: t1, Except.ok r2 :: t2) => (some (pairedTryFrom r1 r2), (t1, t2))
  | ([], []) => (none, ([], []))
  | (_ :: t1, []) =>
      (some (Except.error ⟨ErrKind.unexpectedEof, "reached the end of r2 before r1"⟩), (t1, []))
  | ([], _ :: t2) =>
      (some (Except.error ⟨ErrKind.unexpectedEof, "reached the end of r1 before r2"⟩), ([], t2))
  | (Except.error e :: t1, _ :: t2) => (some (Except.error e), (t1, t2))
  | (_ :: t1, Except.error e :: t2) => (some (Except.error e), (t1, t2))

/-! ### Helper lemmas about the sink and `insert_record` -/

theorem writeRecord_ok (w : CsvWriter) (row : List String) (h : nextWriteOk w) :
    writeRecord w row = (⟨w.rows ++ [row], w.plan.tail⟩, Except.ok ()) := by
  rcases w with ⟨rows, plan⟩
  cases plan with
  | nil => rfl
  | cons b rest =>
    rcases h with h | h
    · exact absurd h (by simp)
    · simp only [List.head?] at h
      cases b
      · exact absurd h (by simp)
      · rfl

theorem insert_record_map_hit (s : Clusters) (h : Nat) (id : String) (c : Cluster)
    (hl : lookupCluster s.clusterMap h = some c) :
    (insert_record s h id).1.clusterMap = bumpCluster s.clusterMap h := by
  cases hw : s.clusterCsvWriter <;> simp [insert_record, hl, hw]

theorem insert_record_map_miss (s : Clusters) (h : Nat) (id : String)
    (hl : lookupCluster s.clusterMap h = none) :
    (insert_record s h id).1.clusterMap = s.clusterMap ++ [(h, ⟨id, 1⟩)] := by
  cases hw : s.clusterCsvWriter <;> simp [insert_record, hl, hw]

theorem insert_record_total (s : Clusters) (h : Nat) (id : String) :
    (insert_record s h id).1.totalRecords = s.totalRecords + 1 := by
  cases hl : lookupCluster s.clusterMap h <;> cases hw : s.clusterCsvWriter <;>
    simp [insert_record, hl, hw]

theorem insert_record_prefixOpt (s : Clusters) (h : Nat) (id : String) :
    (insert_record s h id).1.prefixLengthOpt = s.prefixLengthOpt := by
  cases hl : lookupCluster s.clusterMap h <;> cases hw : s.clusterCsvWriter <;>
    simp [insert_record, hl, hw]

theorem insert_record_res_miss_none (s : Clusters) (h : Nat) (id : String)
    (hl : lookupCluster s.clusterMap h = none) (hw : s.clusterCsvWriter = none) :
    (insert_record s h id).2 = Except.ok true := by
  simp [insert_record, hl, hw]

theorem insert_record_res_miss_some (s : Clusters) (h : Nat) (id : String) (w : CsvWriter)
    (hl : lookupCluster s.clusterMap h = none) (hw : s.clusterCsvWriter = some w)
    (hok : nextWriteOk w) :
    (insert_record s h id).1.clusterCsvWriter = some ⟨w.rows ++ [[id, id]], w.plan.tail⟩ ∧
      (insert_record s h id).2 = Except.ok true := by
  simp [insert_record, hl, hw, writeRecord_ok w _ hok, Except.map]

theorem insert_record_res_hit_none (s : Clusters) (h : Nat) (id : String) (c : Cluster)
    (hl : lookupCluster s.clusterMap h = some c) (hw : s.clusterCsvWriter = none) :
    (insert_record s h id).2 = Except.ok false := by
  simp [insert_record, hl, hw]

theorem insert_record_res_hit_some (s : Clusters) (h : Nat) (id : String) (c : Cluster)
    (w : CsvWriter) (hl : lookupCluster s.clusterMap h = some c)
    (hw : s.clusterCsvWriter = some w) (hok : nextWriteOk w) :
    (insert_record s h id).1.clusterCsvWriter = some ⟨w.rows ++ [[c.id, id]], w.plan.tail⟩ ∧
      (insert_record s h id).2 = Except.ok false := by
  simp [insert_record, hl, hw, writeRecord_ok w _ hok, Except.map]

/-! ### Helper lemmas about the association-list map -/

theorem bumpCluster_length (m : List (Nat × Cluster)) (k : Nat) :
    (bumpCluster m k).length = m.length := by
  simp [bumpCluster]

theorem lookupCluster_cons (k0 : Nat) (c0 : Cluster) (rest : List (Nat × Cluster)) (k : Nat) :
    lookupCluster ((k0, c0) :: rest) k = if k0 = k then some c0 else lookupCluster rest k := rfl

theorem bumpCluster_cons (k0 : Nat) (c0 : Cluster) (rest : List (Nat × Cluster)) (h : Nat) :
    bumpCluster ((k0, c0) :: rest) h =
      (if k0 = h then (k0, (⟨c0.id, c0.size + 1⟩ : Cluster)) else (k0, c0)) :: bumpCluster rest h :=
  rfl

theorem lookup_bump (m : List (Nat × Cluster)) (h k : Nat) :
    lookupCluster (bumpCluster m h) k =
      Option.map (fun c => if k = h then (⟨c.id, c.size + 1⟩ : Cluster) else c)
        (lookupCluster m k) := by
  induction m with
  | nil => rfl
  | cons e rest ih =>
    obtain ⟨k0, c0⟩ := e
    rw [bumpCluster_cons]
    by_cases h1 : k0 = h
    · rw [if_pos h1, lookupCluster_cons, lookupCluster_cons]
      by_cases h2 : k0 = k
      · have hk : k = h := by omega
        simp [h2, hk]
      · simp [h2, ih]
    · rw [if_neg h1, lookupCluster_cons, lookupCluster_cons]
      by_cases h2 : k0 = k
      · have hk : ¬k = h := by omega
        simp [h2, hk]
      · simp [h2, ih]

theorem lookup_append_some (m l : List (Nat × Cluster)) (k : Nat) (c : Cluster)
    (hl : lookupCluster m k = some c) : lookupCluster (m ++ l) k = some c := by
  induction m with
  | nil => simp [lookupCluster] at hl
  | cons e rest ih =>
    by_cases h1 : e.1 = k <;> simp [lookupCluster, h1] at hl ⊢
    · exact hl
    · exact ih hl

theorem lookup_append_none (m l : List (Nat × Cluster)) (k : Nat)
    (hl : lookupCluster m k = none) : lookupCluster (m ++ l) k = lookupCluster l k := by
  induction m with
  | nil => simp
  | cons e rest ih =>
    by_cases h1 : e.1 = k <;> simp [lookupCluster, h1] at hl ⊢
    exact ih hl

theorem insert_record_lookup_self (s : Clusters) (h : Nat) (id : String) :
    ∃ c, lookupCluster (insert_record s h id).1.clusterMap h = some c := by
  cases hl : lookupCluster s.clusterMap h with
  | some c =>
    rw [insert_record_map_hit s h id c hl, lookup_bump, hl]
    exact ⟨_, rfl⟩
  | none =>
    rw [insert_record_map_miss s h id hl, lookup_append_none _ _ _ hl]
    exact ⟨⟨id, 1⟩, by simp [lookupCluster]⟩

/-! ### Prefix and fingerprint congruence -/

theorem take_min (l : List Nat) (n : Nat) : l.take (min n l.length) = l.take n := by
  rcases le_total n l.length with h | h
  · rw [min_eq_left h]
  · rw [min_eq_right h, List.take_length, List.take_of_length_le h]

theorem prefixBytes_some (s : Clusters) (p : Nat) (seq : List Nat)
    (hp : s.prefixLengthOpt = some p) : prefixBytes s seq = seq.take (min p seq.length) := by
  simp [prefixBytes, hp]

theorem prefixBytes_none (s : Clusters) (seq : List Nat)
    (hp : s.prefixLengthOpt = none) : prefixBytes s seq = seq := by
  simp [prefixBytes, hp]

theorem prefixBytes_congr (s1 s2 : Clusters) (seq : List Nat)
    (hp : s1.prefixLengthOpt = s2.prefixLengthOpt) : prefixBytes s1 seq = prefixBytes s2 seq := by
  simp [prefixBytes, hp]

theorem single_hash_congr (s1 s2 : Clusters) (r : Rec)
    (hp : s1.prefixLengthOpt = s2.prefixLengthOpt) : single_hash s1 r = single_hash s2 r := by
  simp [single_hash, prefixBytes_congr s1 s2 _ hp]

theorem pair_hash_congr (s1 s2 : Clusters) (p : PairedRecord)
    (hp : s1.prefixLengthOpt = s2.prefixLengthOpt) : pair_hash s1 p = pair_hash s2 p := by
  simp [pair_hash, prefixBytes_congr s1 s2 _ hp]

theorem opHash_congr (s1 s2 : Clusters) (op : Op)
    (hp : s1.prefixLengthOpt = s2.prefixLengthOpt) : opHash s1 op = opHash s2 op := by
  cases op with
  | single r => exact single_hash_congr s1 s2 r hp
  | pair p => exact pair_hash_congr s1 s2 p hp

/-! ### Per-call and whole-run lemmas -/

theorem insertOp_eq (s : Clusters) (op : Op) :
    insertOp s op = insert_record s (opHash s op) (opId op) := by
  cases op <;> rfl

theorem applyOp_total (s : Clusters) (op : Op) :
    (applyOp s op).totalRecords = s.totalRecords + 1 := by
  rw [applyOp, insertOp_eq]; exact insert_record_total _ _ _

theorem applyOp_prefixOpt (s : Clusters) (op : Op) :
    (applyOp s op).prefixLengthOpt = s.prefixLengthOpt := by
  rw [applyOp, insertOp_eq]; exact insert_record_prefixOpt _ _ _

theorem applyOp_unique_le (s : Clusters) (op : Op) :
    (applyOp s op).clusterMap.length ≤ s.clusterMap.length + 1 := by
  rw [applyOp, insertOp_eq]
  cases hl : lookupCluster s.clusterMap (opHash s op) with
  | some c => rw [insert_record_map_hit _ _ _ c hl, bumpCluster_length]; omega
  | none => rw [insert_record_map_miss _ _ _ hl]; simp

theorem applyOp_lookup_id (s : Clusters) (op : Op) (k : Nat) (c : Cluster)
    (hl : lookupCluster s.clusterMap k = some c) :
    ∃ c', lookupCluster (applyOp s op).clusterMap k = some c' ∧ c'.id = c.id := by
  rw [applyOp, insertOp_eq]
  cases hl2 : lookupCluster s.clusterMap (opHash s op) with
  | some c2 =>
    rw [insert_record_map_hit _ _ _ c2 hl2, lookup_bump, hl]
    by_cases hk : k = opHash s op <;> simp [hk]
  | none =>
    rw [insert_record_map_miss _ _ _ hl2]
    exact ⟨c, lookup_append_some _ _ _ _ hl, rfl⟩

theorem runOps_cons (s : Clusters) (op : Op) (ops : List Op) :
    runOps s (op :: ops) = runOps (applyOp s op) ops := rfl

theorem runOps_total (ops : List Op) : ∀ s : Clusters,
    (runOps s ops).totalRecords = s.totalRecords + ops.length := by
  induction ops with
  | nil => intro s; rfl
  | cons op rest ih =>
    intro s
    rw [runOps_cons, ih, applyOp_total, List.length_cons]
    omega

theorem runOps_prefixOpt (ops : List Op) : ∀ s : Clusters,
    (runOps s ops).prefixLengthOpt = s.prefixLengthOpt := by
  induction ops with
  | nil => intro s; rfl
  | cons op rest ih => intro s; rw [runOps_cons, ih, applyOp_prefixOpt]

theorem runOps_unique_le (ops : List Op) : ∀ s : Clusters,
    (runOps s ops).clusterMap.length ≤ s.clusterMap.length + ops.length := by
  induction ops with
  | nil => intro s; simp [runOps]
  | cons op rest ih =>
    intro s
    rw [runOps_cons, List.length_cons]
    calc (runOps (applyOp s op) rest).clusterMap.length
        ≤ (applyOp s op).clusterMap.length + rest.length := ih _
      _ ≤ s.clusterMap.length + (rest.length + 1) := by
          have := applyOp_unique_le s op
          omega

theorem runOps_lookup_id (ops : List Op) : ∀ (s : Clusters) (k : Nat) (c : Cluster),
    lookupCluster s.clusterMap k = some c →
    ∃ c', lookupCluster (runOps s ops).clusterMap k = some c' ∧ c'.id = c.id := by
  induction ops with
  | nil => intro s k c hl; exact ⟨c, hl, rfl⟩
  | cons op rest ih =>
    intro s k c hl
    obtain ⟨c1, hc1, hid1⟩ := applyOp_lookup_id s op k c hl
    obtain ⟨c2, hc2, hid2⟩ := ih (applyOp s op) k c1 hc1
    exact ⟨c2, hc2, hid2.trans hid1⟩

/-- Inserting the same fingerprint twice in a row: the second call is a
hit, so the cluster count is unchanged while the total grows by one. -/
theorem second_insert_hit (s : Clusters) (h : Nat) (id1 id2 : String) :
    unique_records (insert_record (insert_record s h id1).1 h id2).1
        = unique_records (insert_record s h id1).1 ∧
      total_records (insert_record (insert_record s h id1).1 h id2).1
        = total_records (insert_record s h id1).1 + 1 := by
  obtain ⟨c, hc⟩ := insert_record_lookup_self s h id1
  constructor
  · rw [unique_records, unique_records, insert_record_map_hit _ _ _ c hc, bumpCluster_length]
  · exact insert_record_total _ _ _

theorem from_writer_ok (wOpt : Option CsvWriter) (pOpt : Option Nat) (s0 : Clusters)
    (h : from_writer wOpt pOpt = Except.ok s0) :
    s0.clusterMap = [] ∧ s0.totalRecords = 0 ∧ s0.prefixLengthOpt = pOpt := by
  cases wOpt with
  | none =>
    simp [from_writer] at h
    rw [← h]
    exact ⟨rfl, rfl, rfl⟩
  | some w =>
    simp only [from_writer] at h
    cases hw : (writeRecord w ["representative read id", "read id"]).2 with
    | ok u => rw [hw] at h; simp at h; rw [← h]; exact ⟨rfl, rfl, rfl⟩
    | error e => rw [hw] at h; simp at h

/-- The cluster map, total counter and prefix configuration evolve
identically in two runs that agree on them, whatever the row sinks are:
counters never depend on the sink. -/
theorem runOps_config_eq (ops : List Op) : ∀ s1 s2 : Clusters,
    s1.clusterMap = s2.clusterMap → s1.totalRecords = s2.totalRecords →
    s1.prefixLengthOpt = s2.prefixLengthOpt →
    (runOps s1 ops).clusterMap = (runOps s2 ops).clusterMap ∧
      (runOps s1 ops).totalRecords = (runOps s2 ops).totalRecords := by
  induction ops with
  | nil => intro s1 s2 hm ht hp; exact ⟨hm, ht⟩
  | cons op rest ih =>
    intro s1 s2 hm ht hp
    rw [runOps_cons, runOps_cons]
    have hh : opHash s1 op = opHash s2 op := opHash_congr s1 s2 op hp
    apply ih
    · rw [applyOp, insertOp_eq, applyOp, insertOp_eq, hh]
      cases hl : lookupCluster s2.clusterMap (opHash s2 op) with
      | some c =>
        rw [insert_record_map_hit _ _ _ c (by rw [hm]; exact hl),
          insert_record_map_hit _ _ _ c hl, hm]
      | none =>
        rw [insert_record_map_miss _ _ _ (by rw [hm]; exact hl),
          insert_record_map_miss _ _ _ hl, hm]
    · rw [applyOp_total, applyOp_total, ht]
    · rw [applyOp_prefixOpt, applyOp_prefixOpt, hp]

/-! ### The fingerprint is a 64-bit value, and 64-bit fingerprints of
arbitrarily long sequences must collide -/

theorem wadd_lt (a b : Nat) : wadd a b < 2 ^ 64 :=
  Nat.mod_lt _ (by positivity)

theorem rotl_lt (x n : Nat) : rotl x n < 2 ^ 64 :=
  Nat.mod_lt _ (by positivity)

/-- Every state word a SipRound produces is a 64-bit value. -/
theorem sipRound_bounded (s : SipState) :
    (sipRound s).v0 < 2 ^ 64 ∧ (sipRound s).v1 < 2 ^ 64 ∧
      (sipRound s).v2 < 2 ^ 64 ∧ (sipRound s).v3 < 2 ^ 64 := by
  refine ⟨wadd_lt _ _, Nat.xor_lt_two_pow (rotl_lt _ _) (wadd_lt _ _), rotl_lt _ _,
    Nat.xor_lt_two_pow (rotl_lt _ _) (wadd_lt _ _)⟩

theorem sipHash13_lt (msg : List Nat) : sipHash13 msg < 2 ^ 64 :=
  Nat.xor_lt_two_pow
    (Nat.xor_lt_two_pow (sipRound_bounded _).1 (sipRound_bounded _).2.1)
    (Nat.xor_lt_two_pow (sipRound_bounded _).2.2.1 (sipRound_bounded _).2.2.2)

/-- Base-256 little-endian digits of `n`, `k` of them. -/
def encBytes : Nat → Nat → List Nat
  | 0, _ => []
  | k + 1, n => n % 256 :: encBytes k (n / 256)

/-- Recombine base-256 little-endian digits. -/
def decBytes : List Nat → Nat
  | [] => 0
  | b :: rest => b + 256 * decBytes rest

theorem decBytes_encBytes : ∀ (k n : Nat), n < 256 ^ k → decBytes (encBytes k n) = n
  | 0, n, h => by
    simp only [encBytes, decBytes]
    omega
  | k + 1, n, h => by
    have hd : n / 256 < 256 ^ k := by
      rw [Nat.div_lt_iff_lt_mul (by norm_num)]
      calc n < 256 ^ (k + 1) := h
        _ = 256 ^ k * 256 := by ring
    simp only [encBytes, decBytes, decBytes_encBytes k (n / 256) hd]
    omega

/-- Pigeonhole: there are more byte sequences of length 9 than 64-bit
fingerprint values, so two distinct sequences share a fingerprint. -/
theorem sip_collision : ∃ l1 l2 : List Nat, l1 ≠ l2 ∧ sipHash13 l1 = sipHash13 l2 := by
  obtain ⟨a, b, hne, heq⟩ :=
    Fintype.exists_ne_map_eq_of_card_lt
      (fun n : Fin (2 ^ 64 + 1) =>
        (⟨sipHash13 (encBytes 9 n.val), sipHash13_lt _⟩ : Fin (2 ^ 64)))
      (by rw [Fintype.card_fin, Fintype.card_fin]; exact Nat.lt_succ_self _)
  have hcard : (2 : Nat) ^ 64 + 1 ≤ 256 ^ 9 := by norm_num
  refine ⟨encBytes 9 a.val, encBytes 9 b.val, ?_, ?_⟩
  · intro hEq
    apply hne
    apply Fin.ext
    calc a.val = decBytes (encBytes 9 a.val) :=
          (decBytes_encBytes 9 a.val (lt_of_lt_of_le a.isLt hcard)).symm
      _ = decBytes (encBytes 9 b.val) := by rw [hEq]
      _ = b.val := decBytes_encBytes 9 b.val (lt_of_lt_of_le b.isLt hcard)
  · exact congrArg Fin.val heq

/-! ### More support lemmas -/

theorem insert_record_writer_none (s : Clusters) (h : Nat) (id : String)
    (hw : s.clusterCsvWriter = none) : (insert_record s h id).1.clusterCsvWriter = none := by
  cases hl : lookupCluster s.clusterMap h <;> simp [insert_record, hl, hw]

/-- Inserting two single records whose fingerprints agree: the second is
a hit, so no new cluster appears while the total advances. -/
theorem insert_single_same_hash (s : Clusters) (r1 r2 : Rec)
    (hh : single_hash s r1 = single_hash s r2) :
    unique_records (insert_single (insert_single s r1).1 r2).1
        = unique_records (insert_single s r1).1 ∧
      total_records (insert_single (insert_single s r1).1 r2).1
        = total_records (insert_single s r1).1 + 1 := by
  have hp : (insert_single s r1).1.prefixLengthOpt = s.prefixLengthOpt := by
    rw [insert_single]; exact insert_record_prefixOpt _ _ _
  have h2 : single_hash (insert_single s r1).1 r2 = single_hash s r1 := by
    rw [single_hash_congr _ s r2 hp, hh]
  have hstep : insert_single (insert_single s r1).1 r2
      = insert_record (insert_single s r1).1 (single_hash s r1) r2.id := by
    rw [insert_single, h2]
  rw [hstep]
  simp only [insert_single]
  exact second_insert_hit s (single_hash s r1) r1.id r2.id

/-- The pair analogue of `insert_single_same_hash`. -/
theorem insert_pair_same_hash (s : Clusters) (p q : PairedRecord)
    (hh : pair_hash s p = pair_hash s q) :
    unique_records (insert_pair (insert_pair s p).1 q).1
        = unique_records (insert_pair s p).1 ∧
      total_records (insert_pair (insert_pair s p).1 q).1
        = total_records (insert_pair s p).1 + 1 := by
  have hp : (insert_pair s p).1.prefixLengthOpt = s.prefixLengthOpt := by
    rw [insert_pair]; exact insert_record_prefixOpt _ _ _
  have h2 : pair_hash (insert_pair s p).1 q = pair_hash s p := by
    rw [pair_hash_congr _ s q hp, hh]
  have hstep : insert_pair (insert_pair s p).1 q
      = insert_record (insert_pair s p).1 (pair_hash s p) q.r1.id := by
    rw [insert_pair, h2]
  rw [hstep]
  simp only [insert_pair]
  exact second_insert_hit s (pair_hash s p) p.r1.id q.r1.id

/-- From a fresh store, the cluster count can never exceed the insert
count. -/
theorem fresh_unique_le_total (s0 : Clusters) (ops : List Op) (hm : s0.clusterMap = [])
    (ht : s0.totalRecords = 0) :
    unique_records (runOps s0 ops) ≤ total_records (runOps s0 ops) := by
  rw [unique_records, total_records, runOps_total, ht]
  have h := runOps_unique_le ops s0
  rw [hm] at h
  simpa using h

theorem writeRecord_rows_ok (w : CsvWriter) (row : List String)
    (h : (writeRecord w row).2 = Except.ok ()) :
    (writeRecord w row).1.rows = w.rows ++ [row] := by
  rcases w with ⟨rows, plan⟩
  cases plan with
  | nil => rfl
  | cons b rest =>
    cases b
    · simp [writeRecord] at h
    · rfl

theorem writeRecord_rows_err (w : CsvWriter) (row : List String) (e : String)
    (h : (writeRecord w row).2 = Except.error e) :
    (writeRecord w row).1.rows = w.rows := by
  rcases w with ⟨rows, plan⟩
  cases plan with
  | nil => simp [writeRecord] at h
  | cons b rest =>
    cases b
    · rfl
    · simp [writeRecord] at h

/-- The row loop of `write_sizes` emits exactly one row per cluster in
map order on success, and always leaves a prefix of that row list in the
sink. -/
theorem writeSizesRows_spec (m : List (Nat × Cluster)) : ∀ w : CsvWriter,
    ((writeSizesRows w m).2 = Except.ok () →
      (writeSizesRows w m).1.rows = w.rows ++ m.map fun e => sizeRow e.2) ∧
    ∃ n, (writeSizesRows w m).1.rows = w.rows ++ (m.map fun e => sizeRow e.2).take n := by
  induction m with
  | nil =>
    intro w
    exact ⟨fun _ => by simp [writeSizesRows], ⟨0, by simp [writeSizesRows]⟩⟩
  | cons e rest ih =>
    intro w
    cases hwr : (writeRecord w (sizeRow e.2)).2 with
    | ok u =>
      have hrows : (writeRecord w (sizeRow e.2)).1.rows = w.rows ++ [sizeRow e.2] :=
        writeRecord_rows_ok w _ hwr
      obtain ⟨ihok, n, ihn⟩ := ih (writeRecord w (sizeRow e.2)).1
      constructor
      · intro hok
        rw [writeSizesRows] at hok ⊢
        rw [hwr] at hok ⊢
        simp only at hok ⊢
        rw [ihok hok, hrows]
        simp
      · refine ⟨n + 1, ?_⟩
        rw [writeSizesRows, hwr]
        simp only
        rw [ihn, hrows]
        simp
    | error err =>
      have hrows : (writeRecord w (sizeRow e.2)).1.rows = w.rows :=
        writeRecord_rows_err w _ err hwr
      constructor
      · intro hok
        rw [writeSizesRows, hwr] at hok
        simp at hok
      · refine ⟨0, ?_⟩
        rw [writeSizesRows, hwr]
        simp [hrows]

/-! ## The claims -/

/-- C1: for every sequence of insert_single/insert_pair calls (each step
of a run is the run of a prefix of the op list, so quantifying over the
op list covers every observation point), the counters of the resulting
store satisfy `total_records = unique_records + duplicate_records`, and
`total_records` equals the number of insert calls made so far. -/
theorem C1_counter_identity (wOpt : Option CsvWriter) (pOpt : Option Nat) (s0 : Clusters)
    (ops : List Op) (h : from_writer wOpt pOpt = Except.ok s0) :
    total_records (runOps s0 ops)
        = unique_records (runOps s0 ops) + duplicate_records (runOps s0 ops) ∧
      total_records (runOps s0 ops) = ops.length := by
  obtain ⟨hm, ht, _⟩ := from_writer_ok wOpt pOpt s0 h
  have htot : total_records (runOps s0 ops) = ops.length := by
    rw [total_records, runOps_total, ht]
    omega
  have hle : unique_records (runOps s0 ops) ≤ total_records (runOps s0 ops) :=
    fresh_unique_le_total s0 ops hm ht
  refine ⟨?_, htot⟩
  rw [duplicate_records]
  omega

/-- Witness for C1: a concrete one-insert run. -/
theorem C1_counter_identity_witness :
    total_records (runOps ⟨[], none, 0, none⟩ [Op.single ⟨"a", [65]⟩])
        = unique_records (runOps ⟨[], none, 0, none⟩ [Op.single ⟨"a", [65]⟩])
          + duplicate_records (runOps ⟨[], none, 0, none⟩ [Op.single ⟨"a", [65]⟩]) ∧
      total_records (runOps ⟨[], none, 0, none⟩ [Op.single ⟨"a", [65]⟩])
        = [Op.single (⟨"a", [65]⟩ : Rec)].length :=
  C1_counter_identity none none ⟨[], none, 0, none⟩ [Op.single ⟨"a", [65]⟩] rfl

/-- C10: in every store reachable from a fresh store by any sequence of
insert calls (including calls that returned an error), the cluster count
is at most the total count, so the u64 subtraction
`total_records - unique_records` inside `duplicate_records` never
underflows: on ℕ it is exact, `duplicate + unique = total`. -/
theorem C10_no_underflow (wOpt : Option CsvWriter) (pOpt : Option Nat) (s0 : Clusters)
    (ops : List Op) (h : from_writer wOpt pOpt = Except.ok s0) :
    unique_records (runOps s0 ops) ≤ total_records (runOps s0 ops) ∧
      duplicate_records (runOps s0 ops) + unique_records (runOps s0 ops)
        = total_records (runOps s0 ops) := by
  obtain ⟨hm, ht, _⟩ := from_writer_ok wOpt pOpt s0 h
  have hle : unique_records (runOps s0 ops) ≤ total_records (runOps s0 ops) :=
    fresh_unique_le_total s0 ops hm ht
  refine ⟨hle, ?_⟩
  rw [duplicate_records]
  omega

/-- Witness for C10: a concrete run mixing a pair insert and a failing
single insert. -/
theorem C10_no_underflow_witness :
    unique_records (runOps ⟨[], some ⟨[["representative read id", "read id"]], [false]⟩, 0, none⟩
          [Op.pair ⟨⟨"a", [65]⟩, ⟨"a", [66]⟩⟩, Op.single ⟨"b", [67]⟩])
        ≤ total_records (runOps ⟨[], some ⟨[["representative read id", "read id"]], [false]⟩, 0, none⟩
          [Op.pair ⟨⟨"a", [65]⟩, ⟨"a", [66]⟩⟩, Op.single ⟨"b", [67]⟩]) ∧
      duplicate_records (runOps ⟨[], some ⟨[["representative read id", "read id"]], [false]⟩, 0, none⟩
          [Op.pair ⟨⟨"a", [65]⟩, ⟨"a", [66]⟩⟩, Op.single ⟨"b", [67]⟩])
        + unique_records (runOps ⟨[], some ⟨[["representative read id", "read id"]], [false]⟩, 0, none⟩
          [Op.pair ⟨⟨"a", [65]⟩, ⟨"a", [66]⟩⟩, Op.single ⟨"b", [67]⟩])
        = total_records (runOps ⟨[], some ⟨[["representative read id", "read id"]], [false]⟩, 0, none⟩
          [Op.pair ⟨⟨"a", [65]⟩, ⟨"a", [66]⟩⟩, Op.single ⟨"b", [67]⟩]) :=
  C10_no_underflow (some ⟨[], [true, false]⟩) none
    ⟨[], some ⟨[["representative read id", "read id"]], [false]⟩, 0, none⟩
    [Op.pair ⟨⟨"a", [65]⟩, ⟨"a", [66]⟩⟩, Op.single ⟨"b", [67]⟩] rfl

/-- C8: determinism of the counters.  Two runs of the same insert calls
from freshly constructed stores with the same prefix-length configuration
report identical `total_records`, `unique_records` and
`duplicate_records` — even if the two stores were configured with
different (or no) row sinks, since the counters never depend on the
sink. -/
theorem C8_determinism (pOpt : Option Nat) (w1 w2 : Option CsvWriter) (s1 s2 : Clusters)
    (ops : List Op) (h1 : from_writer w1 pOpt = Except.ok s1)
    (h2 : from_writer w2 pOpt = Except.ok s2) :
    total_records (runOps s1 ops) = total_records (runOps s2 ops) ∧
      unique_records (runOps s1 ops) = unique_records (runOps s2 ops) ∧
      duplicate_records (runOps s1 ops) = duplicate_records (runOps s2 ops) := by
  obtain ⟨hm1, ht1, hp1⟩ := from_writer_ok w1 pOpt s1 h1
  obtain ⟨hm2, ht2, hp2⟩ := from_writer_ok w2 pOpt s2 h2
  obtain ⟨hmap, htot⟩ := runOps_config_eq ops s1 s2 (hm1.trans hm2.symm)
    (ht1.trans ht2.symm) (hp1.trans hp2.symm)
  refine ⟨?_, ?_, ?_⟩ <;> simp [total_records, unique_records, duplicate_records, hmap, htot]

/-- Witness for C8: the same op run against a sink-less store and a
store with a sink. -/
theorem C8_determinism_witness :
    total_records (runOps ⟨[], none, 0, none⟩ [Op.single ⟨"b", [67]⟩])
        = total_records (runOps ⟨[], some ⟨[["representative read id", "read id"]], []⟩, 0, none⟩
            [Op.single ⟨"b", [67]⟩]) ∧
      unique_records (runOps ⟨[], none, 0, none⟩ [Op.single ⟨"b", [67]⟩])
        = unique_records (runOps ⟨[], some ⟨[["representative read id", "read id"]], []⟩, 0, none⟩
            [Op.single ⟨"b", [67]⟩]) ∧
      duplicate_records (runOps ⟨[], none, 0, none⟩ [Op.single ⟨"b", [67]⟩])
        = duplicate_records (runOps ⟨[], some ⟨[["representative read id", "read id"]], []⟩, 0, none⟩
            [Op.single ⟨"b", [67]⟩]) :=
  C8_determinism none none (some ⟨[], []⟩) ⟨[], none, 0, none⟩
    ⟨[], some ⟨[["representative read id", "read id"]], []⟩, 0, none⟩
    [Op.single ⟨"b", [67]⟩] rfl rfl

/-- C2: miss/hit contract of `insert_record` and the first-seen
representative.  On a miss (fingerprint not in the mapping) a cluster
with representative this record's id and size 1 is created, the row
`(id, id)` is appended when a sink is configured (and its write
succeeds), and the call returns `true`.  On a hit the cluster's size is
incremented, the row `(representative_id, id)` is appended, and the call
returns `false`.  Consequently for a first record A (fingerprint fresh)
and any later record B with identical prefixed content — arbitrary other
inserts in between — B joins A's cluster, whose representative stays
A's identifier, and B's row is `(A.id, B.id)`. -/
theorem C2_insert_contract :
    (∀ (s : Clusters) (h : Nat) (id : String), lookupCluster s.clusterMap h = none →
      lookupCluster (insert_record s h id).1.clusterMap h = some ⟨id, 1⟩ ∧
        (s.clusterCsvWriter = none → (insert_record s h id).2 = Except.ok true) ∧
        (∀ w, s.clusterCsvWriter = some w → nextWriteOk w →
          (insert_record s h id).1.clusterCsvWriter
              = some ⟨w.rows ++ [[id, id]], w.plan.tail⟩ ∧
            (insert_record s h id).2 = Except.ok true)) ∧
    (∀ (s : Clusters) (h : Nat) (id : String) (c : Cluster),
      lookupCluster s.clusterMap h = some c →
      lookupCluster (insert_record s h id).1.clusterMap h = some ⟨c.id, c.size + 1⟩ ∧
        (s.clusterCsvWriter = none → (insert_record s h id).2 = Except.ok false) ∧
        (∀ w, s.clusterCsvWriter = some w → nextWriteOk w →
          (insert_record s h id).1.clusterCsvWriter
              = some ⟨w.rows ++ [[c.id, id]], w.plan.tail⟩ ∧
            (insert_record s h id).2 = Except.ok false)) ∧
    (∀ (s : Clusters) (A : Rec) (mid : List Op) (B : Rec),
      lookupCluster s.clusterMap (single_hash s A) = none →
      prefixBytes s A.seq = prefixBytes s B.seq →
      (∃ c, lookupCluster (insert_single (runOps (insert_single s A).1 mid) B).1.clusterMap
          (single_hash s A) = some c ∧ c.id = A.id) ∧
        (∀ w, (runOps (insert_single s A).1 mid).clusterCsvWriter = some w → nextWriteOk w →
          (insert_single (runOps (insert_single s A).1 mid) B).1.clusterCsvWriter
            = some ⟨w.rows ++ [[A.id, B.id]], w.plan.tail⟩)) := by
  refine ⟨?_, ?_, ?_⟩
  · intro s h id hl
    refine ⟨?_, ?_, ?_⟩
    · rw [insert_record_map_miss _ _ _ hl, lookup_append_none _ _ _ hl]
      simp [lookupCluster]
    · exact insert_record_res_miss_none s h id hl
    · intro w hw hok
      exact insert_record_res_miss_some s h id w hl hw hok
  · intro s h id c hl
    refine ⟨?_, ?_, ?_⟩
    · rw [insert_record_map_hit _ _ _ c hl, lookup_bump, hl]
      simp
    · exact insert_record_res_hit_none s h id c hl
    · intro w hw hok
      exact insert_record_res_hit_some s h id c w hl hw hok
  · intro s A mid B hl hpre
    have hA : lookupCluster (insert_single s A).1.clusterMap (single_hash s A)
        = some ⟨A.id, 1⟩ := by
      rw [insert_single, insert_record_map_miss _ _ _ hl, lookup_append_none _ _ _ hl]
      simp [lookupCluster]
    obtain ⟨c2, hc2, hid2⟩ :=
      runOps_lookup_id mid (insert_single s A).1 (single_hash s A) ⟨A.id, 1⟩ hA
    have hp2 : (runOps (insert_single s A).1 mid).prefixLengthOpt = s.prefixLengthOpt := by
      rw [runOps_prefixOpt, insert_single]
      exact insert_record_prefixOpt _ _ _
    have hhB : single_hash (runOps (insert_single s A).1 mid) B = single_hash s A := by
      rw [single_hash_congr _ s B hp2, single_hash, single_hash, hpre]
    have hins : insert_single (runOps (insert_single s A).1 mid) B
        = insert_record (runOps (insert_single s A).1 mid) (single_hash s A) B.id := by
      rw [insert_single, hhB]
    constructor
    · rw [hins, insert_record_map_hit _ _ _ c2 hc2, lookup_bump, hc2]
      exact ⟨⟨c2.id, c2.size + 1⟩, by simp, hid2⟩
    · intro w hw hok
      have hres := (insert_record_res_hit_some _ (single_hash s A) B.id c2 w hc2 hw hok).1
      rw [hins, hres, hid2]

/-- Witness for C2: the first-seen-representative clause at a concrete
store with a healthy sink and no intervening inserts. -/
theorem C2_insert_contract_witness :
    (∃ c, lookupCluster (insert_single (runOps (insert_single
          ⟨[], some ⟨[], []⟩, 0, none⟩ ⟨"id_a", [65, 66]⟩).1 []) ⟨"id_b", [65, 66]⟩).1.clusterMap
        (single_hash ⟨[], some ⟨[], []⟩, 0, none⟩ ⟨"id_a", [65, 66]⟩) = some c ∧ c.id = "id_a") ∧
      (∀ w, (runOps (insert_single ⟨[], some ⟨[], []⟩, 0, none⟩
          ⟨"id_a", [65, 66]⟩).1 []).clusterCsvWriter = some w → nextWriteOk w →
        (insert_single (runOps (insert_single ⟨[], some ⟨[], []⟩, 0, none⟩
            ⟨"id_a", [65, 66]⟩).1 []) ⟨"id_b", [65, 66]⟩).1.clusterCsvWriter
          = some ⟨w.rows ++ [["id_a", "id_b"]], w.plan.tail⟩) :=
  C2_insert_contract.2.2 ⟨[], some ⟨[], []⟩, 0, none⟩ ⟨"id_a", [65, 66]⟩ [] ⟨"id_b", [65, 66]⟩
    rfl rfl

/-- C7: when an insert call fails because the row-sink write fails, the
error propagates but the mutations stand: the total counter was still
incremented, the record's cluster was still created (miss) or
size-incremented (hit), and the three counters remain mutually
consistent. -/
theorem C7_sink_failure_not_rolled_back (s : Clusters) (op : Op) (e : String)
    (hcons : unique_records s ≤ total_records s)
    (_herr : (insertOp s op).2 = Except.error e) :
    total_records (insertOp s op).1 = total_records s + 1 ∧
      (lookupCluster s.clusterMap (opHash s op) = none →
        lookupCluster (insertOp s op).1.clusterMap (opHash s op) = some ⟨opId op, 1⟩) ∧
      (∀ c, lookupCluster s.clusterMap (opHash s op) = some c →
        lookupCluster (insertOp s op).1.clusterMap (opHash s op) = some ⟨c.id, c.size + 1⟩) ∧
      unique_records (insertOp s op).1 ≤ total_records (insertOp s op).1 ∧
      total_records (insertOp s op).1
        = unique_records (insertOp s op).1 + duplicate_records (insertOp s op).1 := by
  have htot : (insertOp s op).1.totalRecords = s.totalRecords + 1 := by
    rw [insertOp_eq]
    exact insert_record_total _ _ _
  refine ⟨?_, ?_, ?_, ?_⟩
  · rw [total_records, total_records]
    exact htot
  · intro hl
    rw [insertOp_eq, insert_record_map_miss _ _ _ hl, lookup_append_none _ _ _ hl]
    simp [lookupCluster]
  · intro c hl
    rw [insertOp_eq, insert_record_map_hit _ _ _ c hl, lookup_bump, hl]
    simp
  · have hlen := applyOp_unique_le s op
    simp only [applyOp] at hlen
    simp only [unique_records, total_records, duplicate_records] at hcons ⊢
    constructor
    · omega
    · omega

/-- Witness for C7: a miss whose sink write fails. -/
theorem C7_sink_failure_witness :
    total_records (insertOp ⟨[], some ⟨[], [false]⟩, 0, none⟩ (Op.single ⟨"a", [65]⟩)).1
      = total_records (⟨[], some ⟨[], [false]⟩, 0, none⟩ : Clusters) + 1 :=
  (C7_sink_failure_not_rolled_back ⟨[], some ⟨[], [false]⟩, 0, none⟩ (Op.single ⟨"a", [65]⟩)
    "row sink write failure" (Nat.le_refl 0) rfl).1

/-- C3 (amended): the hashed prefix is the first `min(P, len)` bytes when
a prefix length `P` is configured, and the whole sequence otherwise.
With `P` configured, two records whose first `P` bytes agree are treated
as duplicates (the second insert creates no new cluster, only a
duplicate).  With no prefix configured the full sequence feeds the
fingerprint: records are fingerprint-equal exactly when the 64-bit
hashes of their full sequences agree, and equal full sequences are
always treated as duplicates — but, the hash being 64-bit, full-sequence
equality is sufficient rather than necessary (see the counterexample). -/
theorem C3_prefix_truncation_amended :
    (∀ (s : Clusters) (p : Nat) (seq : List Nat), s.prefixLengthOpt = some p →
      prefixBytes s seq = seq.take (min p seq.length)) ∧
    (∀ (s : Clusters) (seq : List Nat), s.prefixLengthOpt = none →
      prefixBytes s seq = seq) ∧
    (∀ (s : Clusters) (p : Nat) (r1 r2 : Rec), s.prefixLengthOpt = some p →
      r1.seq.take p = r2.seq.take p →
      unique_records (insert_single (insert_single s r1).1 r2).1
          = unique_records (insert_single s r1).1 ∧
        total_records (insert_single (insert_single s r1).1 r2).1
          = total_records (insert_single s r1).1 + 1) ∧
    (∀ (s : Clusters) (r1 r2 : Rec), s.prefixLengthOpt = none →
      (single_hash s r1 = single_hash s r2 ↔ sipHash13 r1.seq = sipHash13 r2.seq) ∧
      (r1.seq = r2.seq →
        unique_records (insert_single (insert_single s r1).1 r2).1
            = unique_records (insert_single s r1).1 ∧
          total_records (insert_single (insert_single s r1).1 r2).1
            = total_records (insert_single s r1).1 + 1)) := by
  refine ⟨?_, ?_, ?_, ?_⟩
  · exact fun s p seq hp => prefixBytes_some s p seq hp
  · exact fun s seq hp => prefixBytes_none s seq hp
  · intro s p r1 r2 hp hpre
    apply insert_single_same_hash
    rw [single_hash, single_hash, prefixBytes_some s p _ hp, prefixBytes_some s p _ hp,
      take_min, take_min, hpre]
  · intro s r1 r2 hp
    constructor
    · rw [single_hash, single_hash, prefixBytes_none s _ hp, prefixBytes_none s _ hp]
    · intro hseq
      apply insert_single_same_hash
      rw [single_hash, single_hash, prefixBytes_none s _ hp, prefixBytes_none s _ hp, hseq]

/-- Witness for C3 (amended): prefix length 1, two records agreeing on
their first byte only, become one cluster of two. -/
theorem C3_prefix_truncation_witness :
    unique_records (insert_single (insert_single ⟨[], none, 0, some 1⟩ ⟨"a", [7, 1]⟩).1
          ⟨"b", [7, 2]⟩).1
        = unique_records (insert_single ⟨[], none, 0, some 1⟩ ⟨"a", [7, 1]⟩).1 ∧
      total_records (insert_single (insert_single ⟨[], none, 0, some 1⟩ ⟨"a", [7, 1]⟩).1
          ⟨"b", [7, 2]⟩).1
        = total_records (insert_single ⟨[], none, 0, some 1⟩ ⟨"a", [7, 1]⟩).1 + 1 :=
  C3_prefix_truncation_amended.2.2.1 ⟨[], none, 0, some 1⟩ 1 ⟨"a", [7, 1]⟩ ⟨"b", [7, 2]⟩ rfl rfl

/-- C3 counterexample: with no prefix configured, full-sequence equality
is NOT required for two records to be treated as duplicates — the
clustering key is the 64-bit fingerprint, and since there are more
9-byte sequences than 64-bit values, two distinct sequences exist whose
inserts land in the same cluster (the second insert reports a
duplicate, returning `Ok(false)`). -/
theorem C3_collision_refutes_full_seq_required :
    ∃ r1 r2 : Rec, r1.seq ≠ r2.seq ∧
      (insert_single (insert_single ⟨[], none, 0, none⟩ r1).1 r2).2 = Except.ok false := by
  obtain ⟨l1, l2, hne, hh⟩ := sip_collision
  refine ⟨⟨"a", l1⟩, ⟨"b", l2⟩, hne, ?_⟩
  have hh1 : single_hash ⟨[], none, 0, none⟩ ⟨"a", l1⟩ = sipHash13 l1 := by
    rw [single_hash, prefixBytes_none _ _ rfl]
  have hmap1 : (insert_single ⟨[], none, 0, none⟩ ⟨"a", l1⟩).1.clusterMap
      = [(sipHash13 l1, ⟨"a", 1⟩)] := by
    rw [insert_single, hh1, insert_record_map_miss ⟨[], none, 0, none⟩ (sipHash13 l1) "a" rfl]
    rfl
  have hw1 : (insert_single ⟨[], none, 0, none⟩ ⟨"a", l1⟩).1.clusterCsvWriter = none := by
    rw [insert_single]
    exact insert_record_writer_none _ _ _ rfl
  have hp1 : (insert_single ⟨[], none, 0, none⟩ ⟨"a", l1⟩).1.prefixLengthOpt = none := by
    rw [insert_single]
    exact insert_record_prefixOpt _ _ _
  have hh2 : single_hash (insert_single ⟨[], none, 0, none⟩ ⟨"a", l1⟩).1 ⟨"b", l2⟩
      = sipHash13 l1 := by
    rw [single_hash, prefixBytes_none _ _ hp1, ← hh]
  have hstep : insert_single (insert_single ⟨[], none, 0, none⟩ ⟨"a", l1⟩).1 ⟨"b", l2⟩
      = insert_record (insert_single ⟨[], none, 0, none⟩ ⟨"a", l1⟩).1 (sipHash13 l1) "b" := by
    rw [insert_single, hh2]
  rw [hstep]
  apply insert_record_res_hit_none _ _ _ ⟨"a", 1⟩ ?_ hw1
  rw [hmap1, lookupCluster_cons, if_pos rfl]

/-- C6 (amended): two pairs whose members' prefixes match positionally
(r1-with-r1, r2-with-r2) are fingerprint-equal and land in the same
cluster.  The converse does not hold in general: the separator between
the two prefixes is the four zero bytes of `Hash::hash(&0i32)`, so
distinct splits of the same byte stream — e.g. a pair and its swap when
the sequences are made of zero bytes — collide (see the
counterexample). -/
theorem C6_pair_positional_amended (s : Clusters) (p q : PairedRecord)
    (h1 : prefixBytes s p.r1.seq = prefixBytes s q.r1.seq)
    (h2 : prefixBytes s p.r2.seq = prefixBytes s q.r2.seq) :
    pair_hash s p = pair_hash s q ∧
      unique_records (insert_pair (insert_pair s p).1 q).1
        = unique_records (insert_pair s p).1 ∧
      total_records (insert_pair (insert_pair s p).1 q).1
        = total_records (insert_pair s p).1 + 1 := by
  have hh : pair_hash s p = pair_hash s q := by
    rw [pair_hash, pair_hash, h1, h2]
  exact ⟨hh, insert_pair_same_hash s p q hh⟩

/-- Witness for C6 (amended): positionally equal pairs under different
identifiers form one cluster. -/
theorem C6_pair_positional_witness :
    pair_hash ⟨[], none, 0, none⟩ ⟨⟨"a", [1, 2]⟩, ⟨"a", [3]⟩⟩
      = pair_hash ⟨[], none, 0, none⟩ ⟨⟨"b", [1, 2]⟩, ⟨"b", [3]⟩⟩ :=
  (C6_pair_positional_amended ⟨[], none, 0, none⟩ ⟨⟨"a", [1, 2]⟩, ⟨"a", [3]⟩⟩
    ⟨⟨"b", [1, 2]⟩, ⟨"b", [3]⟩⟩ rfl rfl).1

/-- C6 counterexample: the pair `(seqX, seqY) = ([0,0,0,0], [])` and its
swap `(seqY, seqX)` — distinct member sequences — produce the same
hashed byte stream `prefix(r1) ++ [0,0,0,0] ++ prefix(r2) = [0]*8`, so
the swapped pair IS assigned to the first pair's cluster: the second
insert returns `Ok(false)` and one single cluster exists. -/
theorem C6_swap_same_cluster_counterexample :
    ([0, 0, 0, 0] : List Nat) ≠ ([] : List Nat) ∧
      (insert_pair (insert_pair ⟨[], none, 0, none⟩ ⟨⟨"a", [0, 0, 0, 0]⟩, ⟨"a", []⟩⟩).1
          ⟨⟨"b", []⟩, ⟨"b", [0, 0, 0, 0]⟩⟩).2 = Except.ok false ∧
      unique_records (insert_pair (insert_pair ⟨[], none, 0, none⟩
          ⟨⟨"a", [0, 0, 0, 0]⟩, ⟨"a", []⟩⟩).1 ⟨⟨"b", []⟩, ⟨"b", [0, 0, 0, 0]⟩⟩).1 = 1 :=
  ⟨by decide, rfl, rfl⟩

/-- C4: the synchronizer's termination edge cases.  Streams of lengths
(1,0) yield exactly one element, the `UnexpectedEof` error "reached the
end of r2 before r1", after which both streams are exhausted; (0,1)
yields the symmetric "reached the end of r1 before r2" error; (1,1) with
differing identifiers yields the `InvalidData` error naming both
identifiers; (0,0) is immediately the end of the sequence. -/
theorem C4_synchronizer_edges :
    pairedNext ([Except.ok ⟨"id_a", []⟩], [])
        = (some (Except.error ⟨ErrKind.unexpectedEof, "reached the end of r2 before r1"⟩),
            ([], [])) ∧
      pairedNext ([], [Except.ok ⟨"id_a", []⟩])
        = (some (Except.error ⟨ErrKind.unexpectedEof, "reached the end of r1 before r2"⟩),
            ([], [])) ∧
      pairedNext ([Except.ok ⟨"id_a", []⟩], [Except.ok ⟨"id_b", []⟩])
        = (some (Except.error ⟨ErrKind.invalidData,
            "read pair had different read IDs: (id_a, id_b)"⟩), ([], [])) ∧
      pairedNext (([] : List (Except IOErr Rec)), ([] : List (Except IOErr Rec)))
        = (none, ([], [])) :=
  ⟨rfl, rfl, rfl, rfl⟩

/-- C5 (amended): error propagation holds only while the other stream
still yields an element.  When the next element of r1 is an error and r2
yields any element, r1's error is propagated verbatim; when r1's next is
an ok element and r2's next is an error, r2's error is propagated
verbatim.  (When the other stream is already exhausted, the
end-of-stream misalignment arm of the `match` takes precedence — see the
counterexample.) -/
theorem C5_error_propagation_amended :
    (∀ (e : IOErr) (t1 : List (Except IOErr Rec)) (y : Except IOErr Rec)
        (t2 : List (Except IOErr Rec)),
      pairedNext (Except.error e :: t1, y :: t2) = (some (Except.error e), (t1, t2))) ∧
    (∀ (r : Rec) (t1 : List (Except IOErr Rec)) (e : IOErr)
        (t2 : List (Except IOErr Rec)),
      pairedNext (Except.ok r :: t1, Except.error e :: t2) = (some (Except.error e), (t1, t2))) :=
  ⟨fun e t1 y t2 => by cases y <;> rfl, fun r t1 e t2 => rfl⟩

/-- C5 counterexample: when r1's next element is an error but r2 is
already exhausted, the step does NOT propagate r1's error — the
end-of-stream arms of the source's `match` come first, so the result is
the `UnexpectedEof` "reached the end of r2 before r1" error, whose kind
differs from r1's error. -/
theorem C5_eof_beats_r1_error_counterexample :
    pairedNext ([Except.error ⟨ErrKind.other, "underlying read failure"⟩], [])
        = (some (Except.error ⟨ErrKind.unexpectedEof, "reached the end of r2 before r1"⟩),
            ([], [])) ∧
      ErrKind.unexpectedEof ≠ ErrKind.other :=
  ⟨rfl, by decide⟩

/-- C9: `write_sizes` emits a header row followed by exactly one
`(representative_id, size)` row per cluster, in the mapping's iteration
order; and whatever happens (in particular when a row write fails and an
error is returned), the sink holds the partial output written up to the
failure point — always a prefix of the full header-plus-rows list. -/
theorem C9_write_sizes_rows (s : Clusters) (w : CsvWriter) :
    ((write_sizes s w).2 = Except.ok () →
      (write_sizes s w).1.rows
        = w.rows ++ ["representative read id", "cluster size"]
            :: (s.clusterMap.map fun e => sizeRow e.2)) ∧
    ∃ n, (write_sizes s w).1.rows
        = w.rows ++ (["representative read id", "cluster size"]
            :: (s.clusterMap.map fun e => sizeRow e.2)).take n := by
  cases hwr : (writeRecord w ["representative read id", "cluster size"]).2 with
  | ok u =>
    have hrows : (writeRecord w ["representative read id", "cluster size"]).1.rows
        = w.rows ++ [["representative read id", "cluster size"]] :=
      writeRecord_rows_ok w _ hwr
    obtain ⟨hok, n, hn⟩ :=
      writeSizesRows_spec s.clusterMap (writeRecord w ["representative read id", "cluster size"]).1
    constructor
    · intro hdone
      rw [write_sizes, hwr] at hdone ⊢
      simp only at hdone ⊢
      rw [hok hdone, hrows]
      simp
    · refine ⟨n + 1, ?_⟩
      rw [write_sizes, hwr]
      simp only
      rw [hn, hrows]
      simp
  | error err =>
    have hrows : (writeRecord w ["representative read id", "cluster size"]).1.rows = w.rows :=
      writeRecord_rows_err w _ err hwr
    constructor
    · intro hdone
      rw [write_sizes, hwr] at hdone
      simp at hdone
    · refine ⟨0, ?_⟩
      rw [write_sizes, hwr]
      simp [hrows]

/-- Witness for C9: one cluster of size 2, healthy sink: header then the
single row. -/
theorem C9_write_sizes_rows_witness :
    (write_sizes ⟨[(5, ⟨"id_a", 2⟩)], none, 2, none⟩ ⟨[], []⟩).1.rows
        = [] ++ ["representative read id", "cluster size"]
            :: ([(5, (⟨"id_a", 2⟩ : Cluster))].map fun e => sizeRow e.2) :=
  (C9_write_sizes_rows ⟨[(5, ⟨"id_a", 2⟩)], none, 2, none⟩ ⟨[], []⟩).1 rfl

end CzidDedup
